import Mathlib

/-!
# PharmCAT VCF preprocessor — verification of the preprocessing pipeline spec

Shallow embedding of `src/preprocessor/pharmcat_vcf_preprocessor.py` (the CLI
driver, present in the repository) together with the preprocessing core
(`preprocessor.preprocess` and its helpers), which is not part of the visible
sources and is therefore modelled from the specification where noted.
-/

namespace PharmCAT

/-- Command-line arguments after `argparse`, as consumed by the `__main__`
block of `pharmcat_vcf_preprocessor.py`.  `Option` fields are `None`-able
arguments; `Bool` fields are `store_true` flags. -/
structure Args where
  vcf : String
  samples : Option String := none
  sample_file : Option String := none
  missing_to_ref : Bool := false
  output_dir : Option String := none
  base_filename : Option String := none
  single_samples : Bool := false
  keep_intermediate_files : Bool := false
  concurrent_mode : Bool := false
  max_concurrent_processes : Option Nat := none
  retain_specific_regions : Bool := false
  no_gvcf_check : Bool := false
deriving Repr, DecidableEq

/-- The filesystem / metadata oracle: the results of the external probes the
driver makes (`Path.is_dir`, `Path.is_file`, `preprocessor.is_vcf_file`,
`preprocessor.is_gvcf_file`, reading a file of VCF paths, reading the sample
list from a VCF header, `Path.parent`, `Path.stem`, basenames, cpu count). -/
structure Env where
  isDir : String → Bool
  isFile : String → Bool
  readableFile : String → Bool
  isVcfFile : String → Bool
  isGvcfFile : String → Bool
  fileLines : String → List String
  vcfHeaderSamples : String → List String
  parentDir : String → String
  stem : String → String
  vcfBasename : String → String
  cpuCount : Nat

/-- An output path, structured as (directory, file name within it).
The preprocessor joins the output directory with a per-unit file name. -/
structure OutPath where
  dir : String
  name : String
deriving Repr, DecidableEq

/-- The validated configuration handed to `preprocessor.preprocess`
(its keyword arguments in the driver's call at the end of `__main__`). -/
structure PipelineConfig where
  vcf_files : List String
  samples : List String
  input_basename : String
  output_dir : String
  output_basename : String
  split_samples : Bool
  keep_intermediate_files : Bool
  missing_to_ref : Bool
  retain_specific_regions : Bool
  concurrent_mode : Bool
  max_processes : Nat
deriving Repr, DecidableEq

/-- Modelled from the spec: a WorkUnit is one (input file, sample-subset)
pair with a deterministic output path and an ordinal index for stable result
ordering (§3 DATA MODEL). -/
structure WorkUnit where
  inputFile : String
  sampleSubset : List String
  outputPath : OutPath
  ordinal : Nat
deriving Repr, DecidableEq

/-- Modelled from the spec: a PipelineResult is the per-WorkUnit terminal
outcome — either a finished output path, or a failure naming the unit and
carrying its diagnostic text (§3 DATA MODEL).  `intermediates` records the
intermediate artifacts the unit left on disk when it finished. -/
inductive PipelineResult where
  | success (outputPath : OutPath) (intermediates : List String)
  | failure (unitName : String) (diagnostic : String) (intermediates : List String)
deriving Repr, DecidableEq

/- ## Driver fragments embedded from `pharmcat_vcf_preprocessor.py` -/

/-- Modelled from the spec: `preprocessor.check_max_processes` is not among
the visible sources.  Per §5, the concurrent pool size is "a configured cap
(default: number of available processors minus two, floor of 1)". -/
def check_max_processes (requested : Option Nat) (cpuCount : Nat) : Nat :=
  match requested with
  | some n => n
  | none => max 1 (cpuCount - 2)

/-- Lines 206–211 of the driver: `m_max_processes` is initialised to 1 and
only replaced by `check_max_processes` when `--concurrent-mode` is set; a
supplied `-cp` value is otherwise ignored (with a printed notice). -/
def resolveMaxProcesses (concurrentMode : Bool) (requested : Option Nat)
    (cpuCount : Nat) : Nat :=
  if concurrentMode then check_max_processes requested cpuCount else 1

/-- Lines 187–195 of the driver: `m_samples` comes from `--sample-file` if
given, else from `--samples` if given; if the resulting list is empty it is
read from the header of the FIRST input VCF (`m_vcf_files[0]`). -/
def resolveSamples (env : Env) (readSampleFile parseSamples : String → List String)
    (sampleFileArg samplesArg : Option String) (vcfFiles : List String) :
    List String :=
  let s : List String :=
    match sampleFileArg with
    | some f => readSampleFile f
    | none =>
      match samplesArg with
      | some str => parseSamples str
      | none => []
  if s.length = 0 then env.vcfHeaderSamples (vcfFiles.headD "") else s

/-- Modelled from the spec: `preprocessor.validate_dir` is not among the
visible sources; the driver calls it with `create_if_not_exist=True`, so it
returns the directory, creating it when absent.  The first component is the
set of existing directories after the call. -/
def validate_dir (existingDirs : List String) (d : String) :
    List String × String :=
  (if d ∈ existingDirs then existingDirs else d :: existingDirs, d)

/-- Lines 199–204 of the driver: `m_output_dir` is the validated
`--output-dir` when supplied (created if absent), else the parent directory
of the path given as the `-vcf` argument. -/
def resolveOutputDir (env : Env) (existingDirs : List String)
    (outputDirArg : Option String) (vcfPath : String) :
    List String × String :=
  match outputDirArg with
  | some d => validate_dir existingDirs d
  | none => (existingDirs, env.parentDir vcfPath)

/- ## Work Partitioner (modelled from the spec, §4.3) -/

/-- Modelled from the spec: the per-unit output file name is computed from
`output_basename` (or the input's own basename if empty) plus, when split by
sample, the sample ID as a suffix (§4.3). -/
def unitFileName (fileBase : String → String) (cfg : PipelineConfig)
    (file : String) (sample : Option String) : String :=
  let base := if cfg.output_basename = "" then fileBase file else cfg.output_basename
  match sample with
  | some s => base ++ "." ++ s ++ ".preprocessed.vcf.bgz"
  | none => base ++ ".preprocessed.vcf.bgz"

/-- The (input file, optional single sample) pairs the Work Partitioner
expands the configuration into: one pair per input file when
`split_samples` is false, one per (input file × sample) pair when true
(§4.3). -/
def unitPairs (cfg : PipelineConfig) : List (String × Option String) :=
  if cfg.split_samples then
    cfg.vcf_files.flatMap (fun f => cfg.samples.map (fun s => (f, some s)))
  else
    cfg.vcf_files.map (fun f => (f, none))

/-- Modelled from the spec: the Work Partitioner expands the configuration
into an ordered list of WorkUnits — one per input file when `split_samples`
is false (sample subset = all configured samples), one per
(input file × sample) pair when it is true; ordinal = position (§4.3, §3). -/
def partitionUnits (fileBase : String → String) (cfg : PipelineConfig) :
    List WorkUnit :=
  (unitPairs cfg).enum.map (fun p =>
    { inputFile := p.2.1
      sampleSubset :=
        match p.2.2 with
        | some s => [s]
        | none => cfg.samples
      outputPath := ⟨cfg.output_dir, unitFileName fileBase cfg p.2.1 p.2.2⟩
      ordinal := p.1 })

/-- Modelled from the spec: output-path collisions "must be rejected before
dispatch, not discovered after a unit overwrites another's output" (§4.3):
the partitioner checks pairwise distinctness of output paths and rejects the
whole configuration on a collision. -/
def partitionChecked (fileBase : String → String) (cfg : PipelineConfig) :
    Except String (List WorkUnit) :=
  let units := partitionUnits fileBase cfg
  if (units.map WorkUnit.outputPath).Nodup then .ok units
  else .error "output path collision among work units"

/- ## Concurrency Scheduler (modelled from the spec, §4.4–§5) -/

/-- One collection step of the Concurrency Scheduler: when the unit with
dispatch index `i` finishes, its result is stored in the result table at
the unit's ordinal. -/
def schedStep (run : WorkUnit → PipelineResult) (units : List WorkUnit)
    (slots : List (Option PipelineResult)) (i : Nat) :
    List (Option PipelineResult) :=
  match units[i]? with
  | some u => slots.set u.ordinal (some (run u))
  | none => slots

/-- Modelled from the spec: the Concurrency Scheduler dispatches every unit,
collects each unit's result as it completes, and indexes it by the unit's
ordinal into a result table (§4.4–§5: "track unit ordinal index through
dispatch and index directly on collection").  `completionOrder` is the order
in which units finish, an arbitrary interleaving produced by the worker
pool; pool size 1 forces `completionOrder = List.range units.length`. -/
def runScheduler (run : WorkUnit → PipelineResult) (units : List WorkUnit)
    (completionOrder : List Nat) : List (Option PipelineResult) :=
  completionOrder.foldl (schedStep run units)
    (List.replicate units.length none)

/-- The completion order of a sequential (pool size 1) run: units finish in
dispatch order. -/
def sequentialOrder (units : List WorkUnit) : List Nat :=
  List.range units.length

/- ## Result Aggregator (modelled from the spec, §4.5) -/

/-- Whether a PipelineResult is a failure. -/
def PipelineResult.isFailure : PipelineResult → Bool
  | .failure _ _ _ => true
  | .success _ _ => false

/-- The failures among a result list, in order: (unit name, diagnostic). -/
def failuresOf (rs : List PipelineResult) : List (String × String) :=
  rs.filterMap (fun r =>
    match r with
    | .failure u d _ => some (u, d)
    | .success _ _ => none)

/-- All intermediate artifacts left by the units of a result list. -/
def intermediatesOf (rs : List PipelineResult) : List String :=
  rs.flatMap (fun r =>
    match r with
    | .failure _ _ ints => ints
    | .success _ ints => ints)

/-- Outcome of the Result Aggregator: the composite result, plus the list of
intermediate artifacts it removed. -/
structure AggOutcome where
  result : Except (List (String × String)) (List OutPath)
  removed : List String
deriving Repr

/-- Modelled from the spec: the Result Aggregator inspects the ordered
PipelineResults; if any is a failure it raises a reportable error
enumerating ALL failures and removes nothing; if all succeed it returns the
ordered output paths and, unless `keep_intermediate` is set, removes all
intermediate artifacts across all units (§4.5). -/
def aggregate (keepIntermediate : Bool) (rs : List PipelineResult) :
    AggOutcome :=
  let fails := failuresOf rs
  if fails.isEmpty then
    { result := .ok (rs.filterMap (fun r =>
        match r with
        | .success p _ => some p
        | .failure _ _ _ => none))
      removed := if keepIntermediate then [] else intermediatesOf rs }
  else
    { result := .error fails, removed := [] }

/- ## Per-Unit Pipeline (modelled from the spec, §4.2) -/

/-- Modelled from the spec: a StageResult is the outcome of one
external-tool invocation — a produced file path on success, or captured
diagnostic text on failure (§3, §4.1). -/
inductive StageOutcome where
  | ok (outFile : String)
  | fail (diag : String)
deriving Repr, DecidableEq

/-- Modelled from the spec: the fixed ordered stage sequence of the
Per-Unit Pipeline.  Each stage's output becomes the next stage's input; a
stage failure stops the run.  Returns (number of stages actually invoked,
files produced by the successful stages in order, final outcome) (§4.2). -/
def runStages : List (String → StageOutcome) → String →
    Nat × List String × Except String String
  | [], input => (0, [], .ok input)
  | st :: rest, input =>
    match st input with
    | .fail d => (1, [], .error d)
    | .ok out =>
      let r := runStages rest out
      (r.1 + 1, out :: r.2.1, r.2.2)

/-- The state of one WorkUnit after its Per-Unit Pipeline run. -/
structure UnitRun where
  stagesExecuted : Nat
  finalOutput : Option String
  diagnostic : Option String
  intermediatesLeft : List String
deriving Repr, DecidableEq

/-- Modelled from the spec: the Per-Unit Pipeline runs the stage sequence;
a stage failure aborts the remaining stages and surfaces no output file; on
success the last stage's output is the final artifact and the earlier
stages' outputs (the intermediates) are deleted unless `keep_intermediate`
is set (§4.2). -/
def runUnitPipeline (stages : List (String → StageOutcome)) (input : String)
    (keepIntermediate : Bool) : UnitRun :=
  let r := runStages stages input
  match r.2.2 with
  | .error d =>
    { stagesExecuted := r.1
      finalOutput := none
      diagnostic := some d
      intermediatesLeft := r.2.1 }
  | .ok out =>
    { stagesExecuted := r.1
      finalOutput := some out
      diagnostic := none
      intermediatesLeft := if keepIntermediate then r.2.1.dropLast else [] }

/- ## Site restriction and missing-genotype policy (modelled, §4.2 stages 2–3) -/

/-- A VCF data record: a genomic position and its genotype field. -/
structure VcfRecord where
  pos : Nat
  gt : String
deriving Repr, DecidableEq

/-- Modelled from the spec: stage 2 intersects the input with the fixed
positions VCF, keeping only records whose position matches a known PGx
site; sites absent from the input are NOT fabricated at this stage (§4.2). -/
def restrictToPgx (pgxSites : List Nat) (recs : List VcfRecord) :
    List VcfRecord :=
  recs.filter (fun r => r.pos ∈ pgxSites)

/-- Modelled from the spec: stage 3, conditional on `missing_to_ref` — for
PGx positions absent from its input, either leave them absent (flag false)
or materialize them as homozygous-reference (`0/0`) genotype calls
(flag true) (§4.2). -/
def applyMissingToRef (missingToRef : Bool) (pgxSites : List Nat)
    (recs : List VcfRecord) : List VcfRecord :=
  if missingToRef then
    recs ++ (pgxSites.filter (fun p => ¬ recs.any (fun r => r.pos = p))).map
      (fun p => { pos := p, gt := "0/0" })
  else recs

/-- Stages 2–3 composed: restrict to PGx sites, then apply the
missing-genotype policy. -/
def pgxSiteStage (missingToRef : Bool) (pgxSites : List Nat)
    (recs : List VcfRecord) : List VcfRecord :=
  applyMissingToRef missingToRef pgxSites (restrictToPgx pgxSites recs)

/- ## Driver main flow (lines 150–251 of `pharmcat_vcf_preprocessor.py`) -/

/-- Modelled from the spec: `preprocessor.validate_file` is not among the
visible sources; per §7 a missing/unreadable required file is a
configuration error raised as a `ReportableException`. -/
def validate_file (env : Env) (p : String) : Except String String :=
  if env.readableFile p then .ok p else .error ("Error: cannot find " ++ p)

/-- Lines 166–169 of the driver: each line of the file-of-paths is stripped
and passed through `validate_file`; the first failure aborts (the
`ReportableException` propagates to the handler). -/
def validateListedFiles (env : Env) : List String → Except String (List String)
  | [] => .ok []
  | l :: rest =>
    match validate_file env l.trim with
    | .error e => .error e
    | .ok f =>
      match validateListedFiles env rest with
      | .error e => .error e
      | .ok fs => .ok (f :: fs)

/-- Lines 158–170 of the driver: build `m_vcf_files` and `m_input_basename`
from the `-vcf` argument — the file itself if it is a VCF, else the
validated stripped lines it lists (basename = the list file's stem). -/
def resolveInputs (env : Env) (vcfPath : String) :
    Except String (List String × String) :=
  if env.isVcfFile vcfPath then .ok ([vcfPath], env.vcfBasename vcfPath)
  else
    match validateListedFiles env (env.fileLines vcfPath) with
    | .error e => .error e
    | .ok fs => .ok (fs, env.stem vcfPath)

/-- Lines 180–185 of the driver: probe each input file with `is_gvcf_file`
in order, stopping at the first gVCF (which triggers `sys.exit(1)`).
Returns (files actually probed, first gVCF found if any). -/
def gvcfScan (isGvcf : String → Bool) : List String → List String × Option String
  | [] => ([], none)
  | f :: rest =>
    if isGvcf f then ([f], some f)
    else
      let r := gvcfScan isGvcf rest
      (f :: r.1, r.2)

/-- The configuration the driver assembles and passes to
`preprocessor.preprocess` (lines 187–235), given the resolved input files
and basename. -/
def buildConfig (env : Env) (args : Args)
    (readSampleFile parseSamples : String → List String)
    (existingDirs : List String)
    (files : List String) (inputBase : String) : PipelineConfig :=
  { vcf_files := files
    samples := resolveSamples env readSampleFile parseSamples
      args.sample_file args.samples files
    input_basename := inputBase
    output_dir := (resolveOutputDir env existingDirs args.output_dir args.vcf).2
    output_basename := (args.base_filename).getD ""
    split_samples := args.single_samples
    keep_intermediate_files := args.keep_intermediate_files
    missing_to_ref := args.missing_to_ref
    retain_specific_regions := args.retain_specific_regions
    concurrent_mode := args.concurrent_mode
    max_processes := resolveMaxProcesses args.concurrent_mode
      args.max_concurrent_processes env.cpuCount }

/-- The driver's terminal outcome: `sys.exit(1)` after printing a message,
or normal completion with the preprocessed output paths. -/
inductive Outcome where
  | exitErr (msg : String)
  | done (outputs : List OutPath)
deriving Repr

/-- Observable trace of one driver run: its outcome, which files were
probed by the gVCF check, whether `preprocessor.preprocess` was invoked
(i.e. whether any WorkUnit could have been created/dispatched), and which
artifacts the driver itself deleted after a failure. -/
structure RunTrace where
  outcome : Outcome
  gvcfProbed : List String
  preprocessCalled : Bool
  deletedArtifacts : List String
deriving Repr

/-- Whether an outcome is a nonzero-status exit. -/
def Outcome.isExit : Outcome → Bool
  | .exitErr _ => true
  | .done _ => false

/-- Lines 150–251 of the driver: validate the `-vcf` path, resolve the
input file list, reject empty input, run the gVCF check (unless bypassed
with `-G`), resolve samples / output dir / pool size, call
`preprocessor.preprocess`, and on a `ReportableException` print it and
`sys.exit(1)` (deleting nothing).  `preprocessFn` stands for the
preprocessing core; its `Except` failure is the `ReportableException`. -/
def mainFlow (env : Env) (args : Args)
    (readSampleFile parseSamples : String → List String)
    (existingDirs : List String)
    (preprocessFn : PipelineConfig → Except String (List OutPath)) :
    RunTrace :=
  let vcfPath := args.vcf
  if env.isDir vcfPath then
    { outcome := .exitErr (vcfPath ++ " is a directory not a file")
      gvcfProbed := [], preprocessCalled := false, deletedArtifacts := [] }
  else if ¬ env.isFile vcfPath then
    { outcome := .exitErr "Error: no VCF input"
      gvcfProbed := [], preprocessCalled := false, deletedArtifacts := [] }
  else
    match resolveInputs env vcfPath with
    | .error e =>
      { outcome := .exitErr e
        gvcfProbed := [], preprocessCalled := false, deletedArtifacts := [] }
    | .ok (files, inputBase) =>
      if files.length = 0 then
        { outcome := .exitErr "Error: no VCF input"
          gvcfProbed := [], preprocessCalled := false, deletedArtifacts := [] }
      else
        let scan :=
          if args.no_gvcf_check then ([], none)
          else gvcfScan env.isGvcfFile files
        match scan.2 with
        | some f =>
          { outcome := .exitErr (f ++ " is a gVCF file, which is not currently supported.")
            gvcfProbed := scan.1, preprocessCalled := false, deletedArtifacts := [] }
        | none =>
          let cfg := buildConfig env args readSampleFile parseSamples
            existingDirs files inputBase
          match preprocessFn cfg with
          | .error e =>
            { outcome := .exitErr e
              gvcfProbed := scan.1, preprocessCalled := true, deletedArtifacts := [] }
          | .ok outs =>
            { outcome := .done outs
              gvcfProbed := scan.1, preprocessCalled := true, deletedArtifacts := [] }

/- ## Concrete fixtures (used to instantiate the theorems on real inputs) -/

/-- A basename function for concrete runs: identity on the file path. -/
def fbW : String → String := fun f => f

/-- A concrete configuration: one input file, three samples, split by
sample (the spec's own worked example in §8). -/
def cfgW : PipelineConfig :=
  { vcf_files := ["a.vcf"]
    samples := ["A", "B", "C"]
    input_basename := "a.vcf"
    output_dir := "/out"
    output_basename := ""
    split_samples := true
    keep_intermediate_files := false
    missing_to_ref := false
    retain_specific_regions := false
    concurrent_mode := false
    max_processes := 1 }

/-- `cfgW` with `split_samples = false`. -/
def cfgWns : PipelineConfig := { cfgW with split_samples := false }

/-- The units partitioned from `cfgW`. -/
def unitsW : List WorkUnit := partitionUnits fbW cfgW

/-- A concrete per-unit run function: every unit succeeds. -/
def runOkW : WorkUnit → PipelineResult :=
  fun u => .success u.outputPath []

/-- A concrete per-unit run function: the unit for sample `B` fails, the
others succeed and leave one intermediate each. -/
def runMixedW : WorkUnit → PipelineResult :=
  fun u =>
    if u.sampleSubset = ["B"] then .failure u.inputFile "bcftools exited 1" ["mid.B"]
    else .success u.outputPath ["mid." ++ u.outputPath.name]

/-- A concrete filesystem oracle where `g.vcf` is a gVCF and every path is
a readable VCF file. -/
def envW : Env :=
  { isDir := fun _ => false
    isFile := fun _ => true
    readableFile := fun _ => true
    isVcfFile := fun _ => true
    isGvcfFile := fun s => s = "g.vcf"
    fileLines := fun _ => []
    vcfHeaderSamples := fun _ => ["A", "B"]
    parentDir := fun _ => "/in"
    stem := fun s => s
    vcfBasename := fun s => s
    cpuCount := 8 }

/-- A filesystem oracle where nothing exists. -/
def envEmptyW : Env :=
  { envW with isFile := fun _ => false, isVcfFile := fun _ => false }

/-- Concrete sample-file reader for fixtures. -/
def rsfW : String → List String := fun _ => []

/-- Concrete `--samples` argument splitter for fixtures. -/
def psW : String → List String := fun _ => []

/-- Concrete arguments naming the gVCF input. -/
def argsG : Args := { vcf := "g.vcf" }

/-- Concrete arguments naming the gVCF input but bypassing the check. -/
def argsGBypass : Args := { vcf := "g.vcf", no_gvcf_check := true }

/-- Concrete arguments naming a plain VCF input. -/
def argsA : Args := { vcf := "a.vcf" }

/-- A preprocessing core that always succeeds with no outputs. -/
def pfOkW : PipelineConfig → Except String (List OutPath) := fun _ => .ok []

/-- A preprocessing core that raises a `ReportableException`. -/
def pfFailW : PipelineConfig → Except String (List OutPath) :=
  fun _ => .error "ReportableException: bcftools failed"

/-- Concrete stage list: two stages that succeed, producing `s1.vcf` then
`s2.vcf`. -/
def stagesOkW : List (String → StageOutcome) :=
  [fun _ => .ok "s1.vcf", fun _ => .ok "s2.vcf"]

/-- Concrete stage list: first stage succeeds, second fails, third never
runs. -/
def stagesFailW : List (String → StageOutcome) :=
  [fun _ => .ok "s1.vcf", fun _ => .fail "normalization failed",
   fun _ => .ok "s3.vcf"]

/-- A concrete configuration whose samples are exactly those `envW` reads
from any VCF header, two input files, no sample split. -/
def cfgW9 : PipelineConfig :=
  { cfgW with
      vcf_files := ["a.vcf", "b.vcf"]
      samples := ["A", "B"]
      split_samples := false }

/- ## General lemmas about the Work Partitioner -/

theorem partitionUnits_length (fileBase : String → String)
    (cfg : PipelineConfig) :
    (partitionUnits fileBase cfg).length = (unitPairs cfg).length := by
  simp [partitionUnits, List.enum_length]

theorem partitionUnits_getElem (fileBase : String → String)
    (cfg : PipelineConfig) (i : Nat)
    (hp : i < (unitPairs cfg).length)
    (h : i < (partitionUnits fileBase cfg).length) :
    (partitionUnits fileBase cfg)[i] =
      { inputFile := (unitPairs cfg)[i].1
        sampleSubset :=
          match (unitPairs cfg)[i].2 with
          | some s => [s]
          | none => cfg.samples
        outputPath := ⟨cfg.output_dir,
          unitFileName fileBase cfg (unitPairs cfg)[i].1 (unitPairs cfg)[i].2⟩
        ordinal := i } := by
  simp [partitionUnits, List.getElem_map, List.getElem_enum]

theorem partitionUnits_ordinal (fileBase : String → String)
    (cfg : PipelineConfig) (i : Nat)
    (h : i < (partitionUnits fileBase cfg).length) :
    ((partitionUnits fileBase cfg)[i]).ordinal = i := by
  rw [partitionUnits_getElem fileBase cfg i
    (by simpa [partitionUnits_length] using h) h]

theorem partitionUnits_map_ordinal (fileBase : String → String)
    (cfg : PipelineConfig) :
    (partitionUnits fileBase cfg).map WorkUnit.ordinal =
      List.range (partitionUnits fileBase cfg).length := by
  apply List.ext_getElem
  · simp
  · intro i h1 h2
    simp only [List.getElem_map, List.getElem_range]
    exact partitionUnits_ordinal fileBase cfg i (by simpa using h1)

theorem partitionUnits_dir (fileBase : String → String)
    (cfg : PipelineConfig) :
    ∀ u ∈ partitionUnits fileBase cfg, u.outputPath.dir = cfg.output_dir := by
  intro u hu
  obtain ⟨i, h, rfl⟩ := List.mem_iff_getElem.1 hu
  rw [partitionUnits_getElem fileBase cfg i
    (by simpa [partitionUnits_length] using h) h]

theorem partitionUnits_sampleSubset_of_not_split (fileBase : String → String)
    (cfg : PipelineConfig) (hsplit : cfg.split_samples = false) :
    ∀ u ∈ partitionUnits fileBase cfg, u.sampleSubset = cfg.samples := by
  intro u hu
  obtain ⟨i, h, rfl⟩ := List.mem_iff_getElem.1 hu
  have hpl : i < (unitPairs cfg).length := by
    simpa [partitionUnits_length] using h
  rw [partitionUnits_getElem fileBase cfg i hpl h]
  have hvf : i < cfg.vcf_files.length := by
    simpa [unitPairs, hsplit] using hpl
  have hpair : (unitPairs cfg)[i] = (cfg.vcf_files[i], none) := by
    simp [unitPairs, hsplit, List.getElem_map]
  simp [hpair]

theorem unitPairs_length_not_split (cfg : PipelineConfig)
    (hsplit : cfg.split_samples = false) :
    (unitPairs cfg).length = cfg.vcf_files.length := by
  simp [unitPairs, hsplit]

theorem unitPairs_length_split (cfg : PipelineConfig)
    (hsplit : cfg.split_samples = true) :
    (unitPairs cfg).length = cfg.vcf_files.length * cfg.samples.length := by
  simp only [unitPairs, hsplit, if_true, List.length_flatMap]
  have : (List.map (List.length ∘ fun f =>
      cfg.samples.map (fun s => (f, some s))) cfg.vcf_files) =
      List.replicate cfg.vcf_files.length cfg.samples.length := by
    rw [List.eq_replicate_iff]
    constructor
    · simp
    · intro b hb
      simp only [List.mem_map] at hb
      obtain ⟨f, _, rfl⟩ := hb
      simp
  rw [this, List.sum_replicate, smul_eq_mul]

/- ## C6 — worker-pool size -/

/-- C6: the worker-pool size is exactly 1 when concurrent mode is not
requested (any supplied max-processes value is ignored), and when
concurrent mode is requested it is the configured cap, defaulting to the
number of available processors minus two with a floor of 1. -/
theorem C6_pool_size (c : Bool) (req : Option Nat) (cpu : Nat) :
    (c = false → resolveMaxProcesses c req cpu = 1) ∧
    (c = true → req = none →
      resolveMaxProcesses c req cpu = max 1 (cpu - 2)) ∧
    (c = true → ∀ n, req = some n → resolveMaxProcesses c req cpu = n) := by
  refine ⟨fun h => ?_, fun h h2 => ?_, fun h n h2 => ?_⟩
  · simp [resolveMaxProcesses, h]
  · simp [resolveMaxProcesses, check_max_processes, h, h2]
  · simp [resolveMaxProcesses, check_max_processes, h, h2]

/-- Witness for C6 at concrete inputs. -/
theorem C6_pool_size_witness :
    resolveMaxProcesses false (some 7) 8 = 1 ∧
    resolveMaxProcesses true none 8 = max 1 (8 - 2) ∧
    resolveMaxProcesses true (some 3) 8 = 3 :=
  ⟨(C6_pool_size false (some 7) 8).1 rfl,
   (C6_pool_size true none 8).2.1 rfl rfl,
   (C6_pool_size true (some 3) 8).2.2 rfl 3 rfl⟩

/- ## C5 — missing-genotype policy and site restriction -/

/-- C5: for an input lacking a genotype call at a known PGx site `p`, the
stage-2/3 output omits `p` when `missing_to_ref` is false and contains `p`
as a homozygous-reference (`0/0`) call when it is true; the site-restriction
stage itself never fabricates records absent from its input. -/
theorem C5_missing_to_ref (pgx : List Nat) (recs : List VcfRecord) (p : Nat)
    (hp : p ∈ pgx) (habs : ∀ r ∈ recs, r.pos ≠ p) :
    (∀ r ∈ pgxSiteStage false pgx recs, r.pos ≠ p) ∧
    ({ pos := p, gt := "0/0" } : VcfRecord) ∈ pgxSiteStage true pgx recs ∧
    (∀ r ∈ restrictToPgx pgx recs, r ∈ recs) := by
  have hsub : ∀ r ∈ restrictToPgx pgx recs, r ∈ recs := by
    intro r hr
    exact (List.mem_filter.1 hr).1
  have hany : ((restrictToPgx pgx recs).any (fun r => decide (r.pos = p))) =
      false := by
    rw [List.any_eq_false]
    intro r hr
    simp only [decide_eq_true_eq]
    exact habs r (hsub r hr)
  refine ⟨?_, ?_, hsub⟩
  · intro r hr
    have heq : pgxSiteStage false pgx recs = restrictToPgx pgx recs := by
      simp [pgxSiteStage, applyMissingToRef]
    rw [heq] at hr
    exact habs r (hsub r hr)
  · have heq : pgxSiteStage true pgx recs =
        restrictToPgx pgx recs ++
          (pgx.filter (fun q =>
            ¬ (restrictToPgx pgx recs).any (fun r => r.pos = q))).map
            (fun q => { pos := q, gt := "0/0" }) := by
      simp [pgxSiteStage, applyMissingToRef]
    rw [heq, List.mem_append]
    right
    rw [List.mem_map]
    refine ⟨p, List.mem_filter.2 ⟨hp, ?_⟩, rfl⟩
    simp [hany]

/-- Witness for C5: PGx sites {5, 9}, input holding only position 5,
missing position 9. -/
theorem C5_missing_to_ref_witness :
    (∀ r ∈ pgxSiteStage false [5, 9] [⟨5, "0/1"⟩], r.pos ≠ 9) ∧
    ({ pos := 9, gt := "0/0" } : VcfRecord) ∈
      pgxSiteStage true [5, 9] [⟨5, "0/1"⟩] ∧
    (∀ r ∈ restrictToPgx [5, 9] [⟨5, "0/1"⟩], r ∈ [(⟨5, "0/1"⟩ : VcfRecord)]) :=
  C5_missing_to_ref [5, 9] [⟨5, "0/1"⟩] 9 (by decide)
    (by intro r hr; simp only [List.mem_singleton] at hr; subst hr; decide)

/- ## C3 — Work Partitioner counts and output-path distinctness -/

/-- C3: for a validated configuration accepted by the collision check, the
Partitioner produces exactly one WorkUnit per input file when
`split_samples` is false and exactly one per (input file × sample) pair
when it is true, with pairwise-distinct output paths; any collision is
rejected before dispatch, so dispatched units never collide. -/
theorem C3_partitioner (fileBase : String → String) (cfg : PipelineConfig)
    (units : List WorkUnit)
    (hok : partitionChecked fileBase cfg = .ok units) :
    (cfg.split_samples = false → units.length = cfg.vcf_files.length) ∧
    (cfg.split_samples = true →
      units.length = cfg.vcf_files.length * cfg.samples.length) ∧
    (units.map WorkUnit.outputPath).Nodup ∧
    (∀ i j (hi : i < units.length) (hj : j < units.length), i ≠ j →
      units[i].outputPath ≠ units[j].outputPath) := by
  have hnd : ((partitionUnits fileBase cfg).map WorkUnit.outputPath).Nodup ∧
      units = partitionUnits fileBase cfg := by
    by_cases h : ((partitionUnits fileBase cfg).map WorkUnit.outputPath).Nodup
    · refine ⟨h, ?_⟩
      rw [partitionChecked] at hok
      simp only [if_pos h, Except.ok.injEq] at hok
      exact hok.symm
    · rw [partitionChecked] at hok
      simp [if_neg h] at hok
  obtain ⟨hnodup, rfl⟩ := hnd
  refine ⟨fun hsplit => ?_, fun hsplit => ?_, hnodup, ?_⟩
  · rw [partitionUnits_length, unitPairs_length_not_split cfg hsplit]
  · rw [partitionUnits_length, unitPairs_length_split cfg hsplit]
  · intro i j hi hj hne heq
    have hmli : i < ((partitionUnits fileBase cfg).map
        WorkUnit.outputPath).length := by simpa using hi
    have hmlj : j < ((partitionUnits fileBase cfg).map
        WorkUnit.outputPath).length := by simpa using hj
    have hmi : ((partitionUnits fileBase cfg).map WorkUnit.outputPath)[i] =
        ((partitionUnits fileBase cfg).map WorkUnit.outputPath)[j] := by
      simpa [List.getElem_map] using heq
    exact hne (hnodup.getElem_inj_iff.1 hmi)

/-- Witness for C3: one input file, samples {A, B, C}; with
`split_samples = true` the Partitioner yields 1 × 3 units with distinct
output paths, and with `split_samples = false` exactly 1 unit. -/
theorem C3_partitioner_witness :
    partitionChecked fbW cfgW = .ok unitsW ∧
    unitsW.length = cfgW.vcf_files.length * cfgW.samples.length ∧
    (unitsW.map WorkUnit.outputPath).Nodup ∧
    (partitionUnits fbW cfgWns).length = cfgWns.vcf_files.length := by
  have hok : partitionChecked fbW cfgW = .ok unitsW := by rfl
  have hokns : partitionChecked fbW cfgWns = .ok (partitionUnits fbW cfgWns) := by
    rfl
  exact ⟨hok, (C3_partitioner fbW cfgW unitsW hok).2.1 rfl,
    (C3_partitioner fbW cfgW unitsW hok).2.2.1,
    (C3_partitioner fbW cfgWns (partitionUnits fbW cfgWns) hokns).1 rfl⟩

/- ## C9 — default sample list comes from the first input VCF -/

/-- C9: when neither a samples argument nor a sample file is supplied, the
sample list is read from the header of the FIRST input VCF only (it does
not depend on the remaining input files), and that same list becomes the
sample subset of every WorkUnit of the run. -/
theorem C9_default_samples (env : Env) (rsf ps : String → List String)
    (f : String) (rest : List String) (fileBase : String → String)
    (cfg : PipelineConfig)
    (hs : cfg.samples = env.vcfHeaderSamples f)
    (hsplit : cfg.split_samples = false) :
    resolveSamples env rsf ps none none (f :: rest) =
      env.vcfHeaderSamples f ∧
    (∀ rest2, resolveSamples env rsf ps none none (f :: rest2) =
      resolveSamples env rsf ps none none (f :: rest)) ∧
    (∀ u ∈ partitionUnits fileBase cfg,
      u.sampleSubset = env.vcfHeaderSamples f) := by
  have h1 : ∀ r : List String,
      resolveSamples env rsf ps none none (f :: r) =
        env.vcfHeaderSamples f := by
    intro r
    simp [resolveSamples]
  refine ⟨h1 rest, fun r2 => (h1 r2).trans (h1 rest).symm, fun u hu => ?_⟩
  rw [partitionUnits_sampleSubset_of_not_split fileBase cfg hsplit u hu, hs]

/-- Witness for C9: two input files with `envW`'s header samples; the run's
sample list is `envW`'s header of `a.vcf` and every unit of `cfgW9`
carries it. -/
theorem C9_default_samples_witness :
    resolveSamples envW rsfW psW none none ["a.vcf", "b.vcf"] =
      envW.vcfHeaderSamples "a.vcf" ∧
    (∀ u ∈ partitionUnits fbW cfgW9,
      u.sampleSubset = envW.vcfHeaderSamples "a.vcf") :=
  ⟨(C9_default_samples envW rsfW psW "a.vcf" ["b.vcf"] fbW cfgW9 rfl rfl).1,
   (C9_default_samples envW rsfW psW "a.vcf" ["b.vcf"] fbW cfgW9 rfl rfl).2.2⟩

/- ## C10 — output-directory defaulting -/

/-- C10: with no output directory supplied, the output directory is the
parent directory of the `-vcf` argument path (so with a file of VCF paths,
every unit's output goes to the list file's directory: each unit's output
path carries that directory); a supplied output directory is used as given
and created when absent. -/
theorem C10_output_dir (env : Env) (dirs : List String) (vcfPath : String)
    (fileBase : String → String) (cfg : PipelineConfig) :
    ((resolveOutputDir env dirs none vcfPath).2 = env.parentDir vcfPath) ∧
    (∀ d, (resolveOutputDir env dirs (some d) vcfPath).2 = d ∧
      d ∈ (resolveOutputDir env dirs (some d) vcfPath).1) ∧
    (cfg.output_dir = env.parentDir vcfPath →
      ∀ u ∈ partitionUnits fileBase cfg,
        u.outputPath.dir = env.parentDir vcfPath) ∧
    (∀ args : Args, ∀ rsf ps files base, args.output_dir = none →
      (buildConfig env args rsf ps dirs files base).output_dir =
        env.parentDir args.vcf) := by
  refine ⟨rfl, fun d => ⟨?_, ?_⟩, fun h u hu => ?_,
    fun args rsf ps files base hnone => ?_⟩
  · simp [resolveOutputDir, validate_dir]
  · by_cases hd : d ∈ dirs <;> simp [resolveOutputDir, validate_dir, hd]
  · rw [partitionUnits_dir fileBase cfg u hu, h]
  · simp [buildConfig, resolveOutputDir, hnone]

/-- Witness for C10 at a concrete environment: the `-vcf` path is a list
file whose parent is `/in`; with no `-o` the output dir is `/in` and every
unit of a config using it outputs into `/in`; with `-o /out2` the directory
is `/out2` and exists afterwards. -/
theorem C10_output_dir_witness :
    (resolveOutputDir envW [] none "list.txt").2 = envW.parentDir "list.txt" ∧
    (resolveOutputDir envW [] (some "/out2") "list.txt").2 = "/out2" ∧
    "/out2" ∈ (resolveOutputDir envW [] (some "/out2") "list.txt").1 :=
  ⟨(C10_output_dir envW [] "list.txt" fbW cfgW).1,
   ((C10_output_dir envW [] "list.txt" fbW cfgW).2.1 "/out2").1,
   ((C10_output_dir envW [] "list.txt" fbW cfgW).2.1 "/out2").2⟩

/- ## C1 — Concurrency Scheduler preserves ordinal order -/

theorem schedStep_length (run : WorkUnit → PipelineResult)
    (units : List WorkUnit) (slots : List (Option PipelineResult)) (i : Nat) :
    (schedStep run units slots i).length = slots.length := by
  rw [schedStep]
  cases h : units[i]? with
  | none => rfl
  | some u => simp [List.length_set]

theorem foldl_schedStep_length (run : WorkUnit → PipelineResult)
    (units : List WorkUnit) (order : List Nat) :
    ∀ slots : List (Option PipelineResult),
      (order.foldl (schedStep run units) slots).length = slots.length := by
  induction order with
  | nil => intro slots; rfl
  | cons i rest ih =>
    intro slots
    rw [List.foldl_cons, ih, schedStep_length]

theorem foldl_schedStep_getElem? (run : WorkUnit → PipelineResult)
    (units : List WorkUnit)
    (hord : ∀ i (h : i < units.length), units[i].ordinal = i)
    (order : List Nat) :
    ∀ (slots : List (Option PipelineResult)),
      slots.length = units.length →
      ∀ j (hj : j < units.length),
        (order.foldl (schedStep run units) slots)[j]? =
          if j ∈ order then some (some (run units[j])) else slots[j]? := by
  induction order with
  | nil =>
    intro slots _ j _
    simp
  | cons i rest ih =>
    intro slots hlen j hj
    rw [List.foldl_cons,
      ih (schedStep run units slots i) (by rw [schedStep_length, hlen]) j hj]
    by_cases hjr : j ∈ rest
    · simp [hjr]
    · by_cases hij : j = i
      · subst hij
        have hget : units[j]? = some (units[j]) := List.getElem?_eq_getElem hj
        rw [schedStep, hget]
        simp only [hord j hj]
        simp [List.getElem?_set, hlen, hj, hjr]
      · have hstep : (schedStep run units slots i)[j]? = slots[j]? := by
          rw [schedStep]
          cases hg : units[i]? with
          | none => rfl
          | some u =>
            have hilen : i < units.length := by
              by_contra hc
              rw [List.getElem?_eq_none (by omega)] at hg
              exact Option.noConfusion hg
            have hu : u.ordinal = i := by
              rw [List.getElem?_eq_getElem hilen] at hg
              have he : u = units[i] := by
                injection hg with h
                exact h.symm
              rw [he, hord i hilen]
            show (slots.set u.ordinal (some (run u)))[j]? = slots[j]?
            rw [hu, List.getElem?_set, if_neg (fun h => hij h.symm)]
        rw [hstep]
        simp [hjr, hij]

/-- C1: with every unit carrying its ordinal index (as the Partitioner
assigns), the scheduler returns the results indexed in WorkUnit ordinal
order for ANY completion order that is a permutation of the dispatch
indices; in particular a run with pool size 1 (sequential completion order)
and a run under any other completion order yield identical result
sequences. -/
theorem C1_ordinal_order (run : WorkUnit → PipelineResult)
    (units : List WorkUnit) (order : List Nat)
    (hord : ∀ i (h : i < units.length), units[i].ordinal = i)
    (hperm : order.Perm (List.range units.length)) :
    runScheduler run units order = units.map (fun u => some (run u)) ∧
    runScheduler run units order =
      runScheduler run units (sequentialOrder units) := by
  have main : ∀ o : List Nat, (∀ j, j < units.length → j ∈ o) →
      runScheduler run units o = units.map (fun u => some (run u)) := by
    intro o ho
    apply List.ext_getElem?
    intro j
    by_cases hj : j < units.length
    · rw [runScheduler,
        foldl_schedStep_getElem? run units hord o _ (by simp) j hj,
        if_pos (ho j hj), List.getElem?_map, List.getElem?_eq_getElem hj]
      rfl
    · rw [List.getElem?_eq_none, List.getElem?_eq_none]
      · simpa using hj
      · rw [runScheduler, foldl_schedStep_length]
        simpa using hj
  have hmem : ∀ j, j < units.length → j ∈ order := by
    intro j hj
    exact hperm.mem_iff.2 (List.mem_range.2 hj)
  have hseq : ∀ j, j < units.length → j ∈ sequentialOrder units := by
    intro j hj
    exact List.mem_range.2 hj
  exact ⟨main order hmem,
    (main order hmem).trans (main (sequentialOrder units) hseq).symm⟩

/-- Witness for C1: the three units of `cfgW`, completing in the order
2, 0, 1, still produce results in ordinal order, identical to the
sequential (pool size 1) run. -/
theorem C1_ordinal_order_witness :
    runScheduler runOkW unitsW [2, 0, 1] =
      unitsW.map (fun u => some (runOkW u)) ∧
    runScheduler runOkW unitsW [2, 0, 1] =
      runScheduler runOkW unitsW (sequentialOrder unitsW) :=
  C1_ordinal_order runOkW unitsW [2, 0, 1] (by decide) (by decide)

/- ## C2 — failure isolation and composite failure reporting -/

/-- C2: when at least one unit fails, every unit still has exactly one
collected result (no sibling is cancelled: the run function is applied to
every unit), the Result Aggregator — acting only on the full ordered result
list, i.e. after all units have finished — raises a single error
enumerating every failed unit with its diagnostic text, and it removes no
intermediate artifact of any unit. -/
theorem C2_failure_aggregation (keep : Bool)
    (run : WorkUnit → PipelineResult) (units : List WorkUnit)
    (hfail : ∃ u ∈ units, (run u).isFailure = true) :
    (units.map run).length = units.length ∧
    (∀ u ∈ units, run u ∈ units.map run) ∧
    (aggregate keep (units.map run)).result =
      .error (failuresOf (units.map run)) ∧
    (∀ nm d ints, PipelineResult.failure nm d ints ∈ units.map run →
      (nm, d) ∈ failuresOf (units.map run)) ∧
    (aggregate keep (units.map run)).removed = [] := by
  obtain ⟨u, hu, hf⟩ := hfail
  obtain ⟨nm, d, ints, hru⟩ : ∃ nm d ints, run u = .failure nm d ints := by
    cases h : run u with
    | success p i =>
      rw [h, PipelineResult.isFailure] at hf
      exact Bool.noConfusion hf
    | failure nm d i => exact ⟨nm, d, i, rfl⟩
  have hmem : (nm, d) ∈ failuresOf (units.map run) := by
    rw [failuresOf, List.mem_filterMap]
    refine ⟨run u, List.mem_map_of_mem run hu, ?_⟩
    rw [hru]
  have hne : (failuresOf (units.map run)).isEmpty = false := by
    cases hE : failuresOf (units.map run) with
    | nil =>
      rw [hE] at hmem
      exact absurd hmem (List.not_mem_nil _)
    | cons a l => rfl
  refine ⟨List.length_map _ _, fun v hv => List.mem_map_of_mem run hv,
    ?_, ?_, ?_⟩
  · rw [aggregate]
    simp [hne]
  · intro nm2 d2 ints2 hmem2
    rw [failuresOf, List.mem_filterMap]
    exact ⟨_, hmem2, rfl⟩
  · rw [aggregate]
    simp [hne]

/-- Witness for C2: the three units of `cfgW` run under `runMixedW`
(sample B's unit fails): the aggregate raises the full failure list and
removes nothing. -/
theorem C2_failure_aggregation_witness :
    (aggregate false (unitsW.map runMixedW)).result =
      .error (failuresOf (unitsW.map runMixedW)) ∧
    (aggregate false (unitsW.map runMixedW)).removed = [] :=
  ⟨(C2_failure_aggregation false runMixedW unitsW (by decide)).2.2.1,
   (C2_failure_aggregation false runMixedW unitsW (by decide)).2.2.2.2⟩

/- ## C8 — intermediate cleanup and stage-failure abort -/

theorem runStages_append_ok (a b : List (String → StageOutcome))
    (input : String) (n : Nat) (mids : List String) (out : String)
    (h : runStages a input = (n, mids, .ok out)) :
    runStages (a ++ b) input =
      (n + (runStages b out).1, mids ++ (runStages b out).2.1,
        (runStages b out).2.2) := by
  induction a generalizing input n mids with
  | nil =>
    rw [runStages] at h
    injection h with h1 h2
    injection h2 with h2 h3
    injection h3 with h3
    subst h1
    subst h2
    subst h3
    simp [runStages]
  | cons st rest ih =>
    rw [runStages] at h
    cases hst : st input with
    | fail d =>
      rw [hst] at h
      injection h with h1 h2
      injection h2 with h2 h3
      exact Except.noConfusion h3
    | ok o =>
      rw [hst] at h
      injection h with h1 h2
      injection h2 with h2 h3
      rw [List.cons_append, runStages, hst]
      show ((runStages (rest ++ b) o).1 + 1,
        o :: (runStages (rest ++ b) o).2.1,
        (runStages (rest ++ b) o).2.2) = _
      rw [ih o (runStages rest o).1 (runStages rest o).2.1 (by rw [← h3])]
      subst h1
      subst h2
      simp only [Prod.mk.injEq]
      refine ⟨by omega, by simp, ?_⟩
      trivial

/-- C8: within one unit, with `keep_intermediate` false a fully successful
run leaves no intermediate artifact (per unit, and flattened across all
units of a run) while with `keep_intermediate` true the intermediates (all
produced files but the final output) are retained; and a stage failure
aborts the remaining stages — exactly the successful prefix plus the
failing stage execute — surfacing no output file, only the failing stage's
diagnostic. -/
theorem C8_cleanup_and_abort (stages : List (String → StageOutcome))
    (keep : Bool) :
    (∀ input out,
      (runUnitPipeline stages input false).finalOutput = some out →
      (runUnitPipeline stages input false).intermediatesLeft = []) ∧
    (∀ inputs : List String,
      (∀ i ∈ inputs, ∃ out,
        (runUnitPipeline stages i false).finalOutput = some out) →
      (inputs.map (fun i =>
        (runUnitPipeline stages i false).intermediatesLeft)).flatten = []) ∧
    (∀ input out,
      (runUnitPipeline stages input true).finalOutput = some out →
      (runUnitPipeline stages input true).intermediatesLeft =
        (runStages stages input).2.1.dropLast) ∧
    (∀ pre st post input mids mid d, stages = pre ++ st :: post →
      runStages pre input = (pre.length, mids, .ok mid) →
      st mid = .fail d →
      (runUnitPipeline stages input keep).stagesExecuted = pre.length + 1 ∧
      (runUnitPipeline stages input keep).finalOutput = none ∧
      (runUnitPipeline stages input keep).diagnostic = some d) := by
  have part1 : ∀ input out,
      (runUnitPipeline stages input false).finalOutput = some out →
      (runUnitPipeline stages input false).intermediatesLeft = [] := by
    intro input out h
    rw [runUnitPipeline] at h ⊢
    cases hres : (runStages stages input).2.2 with
    | error d =>
      rw [hres] at h
      exact Option.noConfusion h
    | ok o => rfl
  refine ⟨part1, ?_, ?_, ?_⟩
  · intro inputs hall
    rw [List.flatten_eq_nil_iff]
    intro l hl
    rw [List.mem_map] at hl
    obtain ⟨i, hi, rfl⟩ := hl
    obtain ⟨out, hout⟩ := hall i hi
    exact part1 i out hout
  · intro input out h
    rw [runUnitPipeline] at h ⊢
    cases hres : (runStages stages input).2.2 with
    | error d =>
      rw [hres] at h
      exact Option.noConfusion h
    | ok o => rfl
  · intro pre st post input mids mid d hsplit hpre hst
    subst hsplit
    have hrun : runStages (pre ++ st :: post) input =
        (pre.length + 1, mids, .error d) := by
      rw [runStages_append_ok pre (st :: post) input pre.length mids mid hpre,
        runStages, hst]
      simp
    rw [runUnitPipeline, hrun]
    exact ⟨by trivial, by trivial, by trivial⟩

/-- Witness for C8: the two-stage all-success run leaves no intermediates;
in the three-stage run whose second stage fails, exactly 2 stages execute,
no output is surfaced, and the diagnostic is the failing stage's text. -/
theorem C8_cleanup_and_abort_witness :
    (runUnitPipeline stagesOkW "in.vcf" false).intermediatesLeft = [] ∧
    (runUnitPipeline stagesOkW "in.vcf" true).intermediatesLeft =
      (runStages stagesOkW "in.vcf").2.1.dropLast ∧
    (runUnitPipeline stagesFailW "in.vcf" false).stagesExecuted = 1 + 1 ∧
    (runUnitPipeline stagesFailW "in.vcf" false).finalOutput = none ∧
    (runUnitPipeline stagesFailW "in.vcf" false).diagnostic =
      some "normalization failed" := by
  have h2 := (C8_cleanup_and_abort stagesFailW false).2.2.2
    [fun _ => .ok "s1.vcf"] (fun _ => .fail "normalization failed")
    [fun _ => .ok "s3.vcf"] "in.vcf" ["s1.vcf"] "s1.vcf" "normalization failed"
    rfl rfl rfl
  exact ⟨(C8_cleanup_and_abort stagesOkW false).1 "in.vcf" "s2.vcf" rfl,
    (C8_cleanup_and_abort stagesOkW false).2.2.1 "in.vcf" "s2.vcf" rfl,
    h2.1, h2.2.1, h2.2.2⟩

/- ## C4 — gVCF detection before dispatch, bypassable -/

theorem gvcfScan_finds (isGvcf : String → Bool) :
    ∀ files : List String, (∃ f ∈ files, isGvcf f = true) →
      ∃ f', (gvcfScan isGvcf files).2 = some f' := by
  intro files
  induction files with
  | nil =>
    rintro ⟨f, hf, _⟩
    exact absurd hf (List.not_mem_nil f)
  | cons a rest ih =>
    rintro ⟨f, hf, hg⟩
    by_cases ha : isGvcf a = true
    · exact ⟨a, by simp [gvcfScan, ha]⟩
    · rcases List.mem_cons.1 hf with hfa | hf2
      · subst hfa
        exact absurd hg ha
      · obtain ⟨f', h1⟩ := ih ⟨f, hf2, hg⟩
        exact ⟨f', by simp [gvcfScan, ha, h1]⟩

/-- C4: when the resolved input set contains a file detected as gVCF and
the check is not bypassed, the run exits nonzero before
`preprocessor.preprocess` is invoked (so before any WorkUnit exists); with
`-G`/`--no-gvcf-check` the gVCF detector is never invoked on any input
file and the run proceeds to preprocessing. -/
theorem C4_gvcf_check (env : Env) (args : Args)
    (rsf ps : String → List String) (dirs : List String)
    (pf : PipelineConfig → Except String (List OutPath))
    (files : List String) (base : String)
    (hdir : env.isDir args.vcf = false)
    (hfile : env.isFile args.vcf = true)
    (hres : resolveInputs env args.vcf = .ok (files, base))
    (hne : files.length ≠ 0) :
    (args.no_gvcf_check = false → (∃ f ∈ files, env.isGvcfFile f = true) →
      (mainFlow env args rsf ps dirs pf).outcome.isExit = true ∧
      (mainFlow env args rsf ps dirs pf).preprocessCalled = false) ∧
    (args.no_gvcf_check = true →
      (mainFlow env args rsf ps dirs pf).gvcfProbed = [] ∧
      (mainFlow env args rsf ps dirs pf).preprocessCalled = true) := by
  constructor
  · intro hbypass hex
    obtain ⟨f', hsc⟩ := gvcfScan_finds env.isGvcfFile files hex
    rw [mainFlow]
    simp only [hdir, hfile, hres, hbypass, Bool.false_eq_true, if_false,
      Bool.not_eq_true, if_neg hne, hsc]
    exact ⟨rfl, rfl⟩
  · intro hbypass
    rw [mainFlow]
    simp only [hdir, hfile, hres, hbypass, if_true, if_neg hne]
    cases hp : pf (buildConfig env args rsf ps dirs files base) with
    | error e => exact ⟨rfl, rfl⟩
    | ok outs => exact ⟨rfl, rfl⟩

/-- Witness for C4: `envW` detects `g.vcf` as gVCF; with the check active
the run exits before preprocessing, and with `-G` nothing is probed and
preprocessing runs. -/
theorem C4_gvcf_check_witness :
    ((mainFlow envW argsG rsfW psW [] pfOkW).outcome.isExit = true ∧
     (mainFlow envW argsG rsfW psW [] pfOkW).preprocessCalled = false) ∧
    ((mainFlow envW argsGBypass rsfW psW [] pfOkW).gvcfProbed = [] ∧
     (mainFlow envW argsGBypass rsfW psW [] pfOkW).preprocessCalled = true) :=
  ⟨(C4_gvcf_check envW argsG rsfW psW [] pfOkW ["g.vcf"] "g.vcf"
      rfl rfl rfl (by decide)).1 rfl ⟨"g.vcf", by decide, by decide⟩,
   (C4_gvcf_check envW argsGBypass rsfW psW [] pfOkW ["g.vcf"] "g.vcf"
      rfl rfl rfl (by decide)).2 rfl⟩

/- ## C7 — configuration errors precede unit creation; failures delete nothing -/

/-- C7: configuration errors (the `-vcf` path is a directory, is not a
file, a listed VCF is missing/unreadable, or the resolved input list is
empty) make the driver exit nonzero before `preprocessor.preprocess` is
invoked — so before any WorkUnit is created — deleting nothing; and a
`ReportableException` out of preprocessing is printed and exits nonzero
with no artifact deleted. -/
theorem C7_config_errors (env : Env) (args : Args)
    (rsf ps : String → List String) (dirs : List String)
    (pf : PipelineConfig → Except String (List OutPath)) :
    ((env.isDir args.vcf = true ∨ env.isFile args.vcf = false ∨
      (∃ e, resolveInputs env args.vcf = .error e) ∨
      (∃ b, resolveInputs env args.vcf = .ok ([], b))) →
      (mainFlow env args rsf ps dirs pf).outcome.isExit = true ∧
      (mainFlow env args rsf ps dirs pf).preprocessCalled = false ∧
      (mainFlow env args rsf ps dirs pf).deletedArtifacts = []) ∧
    (∀ files base e,
      env.isDir args.vcf = false → env.isFile args.vcf = true →
      resolveInputs env args.vcf = .ok (files, base) →
      files.length ≠ 0 →
      (if args.no_gvcf_check then (([], none) : List String × Option String)
        else gvcfScan env.isGvcfFile files).2 = none →
      pf (buildConfig env args rsf ps dirs files base) = .error e →
      (mainFlow env args rsf ps dirs pf).outcome = .exitErr e ∧
      (mainFlow env args rsf ps dirs pf).deletedArtifacts = []) := by
  constructor
  · intro hcfg
    by_cases hd : env.isDir args.vcf = true
    · rw [mainFlow]
      simp only [hd, if_true]
      exact ⟨by trivial, by trivial, by trivial⟩
    · have hd' : env.isDir args.vcf = false := by
        cases h : env.isDir args.vcf
        · rfl
        · exact absurd h hd
      by_cases hf : env.isFile args.vcf = true
      · rcases hcfg with hc | hc | ⟨e, hc⟩ | ⟨b, hc⟩
        · exact absurd hc hd
        · rw [hf] at hc
          exact Bool.noConfusion hc
        · rw [mainFlow]
          simp only [hd', hf, hc, Bool.false_eq_true, if_false]
          exact ⟨by trivial, by trivial, by trivial⟩
        · rw [mainFlow]
          simp only [hd', hf, hc]
          exact ⟨by trivial, by trivial, by trivial⟩
      · have hf' : env.isFile args.vcf = false := by
          cases h : env.isFile args.vcf
          · rfl
          · exact absurd h hf
        rw [mainFlow]
        simp only [hd', hf', Bool.false_eq_true, if_false, Bool.not_false,
          if_true]
        exact ⟨by trivial, by trivial, by trivial⟩
  · intro files base e hd hf hres hne hscan hp
    rw [mainFlow]
    simp only [hd, hf, hres, Bool.false_eq_true, if_false, if_neg hne]
    cases hb : args.no_gvcf_check with
    | true =>
      rw [hb] at hscan
      simp only [if_true] at hscan ⊢
      rw [hp]
      exact ⟨rfl, rfl⟩
    | false =>
      rw [hb] at hscan
      simp only [Bool.false_eq_true, if_false] at hscan ⊢
      rw [hscan, hp]
      exact ⟨rfl, rfl⟩

/-- Witness for C7: with no filesystem entry for `a.vcf` the driver exits
before preprocessing; with everything valid but a failing preprocessing
core, the driver reports the exception and deletes nothing. -/
theorem C7_config_errors_witness :
    ((mainFlow envEmptyW argsA rsfW psW [] pfOkW).outcome.isExit = true ∧
     (mainFlow envEmptyW argsA rsfW psW [] pfOkW).preprocessCalled = false ∧
     (mainFlow envEmptyW argsA rsfW psW [] pfOkW).deletedArtifacts = []) ∧
    ((mainFlow envW argsA rsfW psW [] pfFailW).outcome =
      .exitErr "ReportableException: bcftools failed" ∧
     (mainFlow envW argsA rsfW psW [] pfFailW).deletedArtifacts = []) :=
  ⟨(C7_config_errors envEmptyW argsA rsfW psW [] pfOkW).1 (.inr (.inl rfl)),
   (C7_config_errors envW argsA rsfW psW [] pfFailW).2 ["a.vcf"] "a.vcf"
     "ReportableException: bcftools failed" rfl rfl rfl (by decide)
     (by decide) rfl⟩

end PharmCAT
